import Mathlib

/-!
Verification of the cleo argument/option binding and validation engine:
a shallow embedding of `cleo/io/inputs/input.py` (class `Input`) and
`cleo/testers/command_tester.py` (class `CommandTester`), together with
spec-level models of their external collaborators (`Definition`,
`Argument`, `Option` specs, the buffered I/O pair, shell quoting), and
theorems about binding, validation, accessors, stream reads and the
test harness.

Conventions of the embedding:
- Python exceptions are modelled by `Except PyError`; `ValueException`
  is the spec taxonomy kind UnknownNameError and `RuntimeException` is
  the spec taxonomy kind ValidationError.
- Python `dict` is modelled as an association list with first-match
  lookup and replace-or-append assignment (`dictInsert`), and
  `\x7b**a, **b\x7d` merge as folding the entries of `b` into `a`.
- Methods that may mutate the object return a pair of the Python result
  (or raised exception) and the post-call object state.
-/

set_option autoImplicit false

/-- Model of the Python exceptions that the embedded code can raise.
`valueException` embeds `cleo.exceptions.ValueException` (spec kind
UnknownNameError), `runtimeException` embeds
`cleo.exceptions.RuntimeException` (spec kind ValidationError),
`typeError` embeds Python TypeError, `attributeError` embeds Python
AttributeError (attribute access on None). -/
inductive PyError where
  | valueException (msg : String)
  | runtimeException (msg : String)
  | typeError (msg : String)
  | attributeError (msg : String)
deriving DecidableEq, Repr

/-- Model of a dynamically typed Python value (the `Any` appearing in
`Input.argument` / `Input.set_argument` and in defaults). -/
inductive PyValue where
  | none
  | str (s : String)
  | int (n : Int)
  | bool (b : Bool)
  | list (xs : List PyValue)
deriving Repr, BEq

/-- Model of a Python `dict` keyed by strings: an association list whose
keys are unique whenever it was built by `dict` operations. -/
abbrev Dict := List (String × PyValue)

/-- Model of Python `k in d`: first-match lookup. -/
def dictGet (d : Dict) (k : String) : Option PyValue :=
  match d with
  | [] => Option.none
  | p :: t => if p.1 == k then some p.2 else dictGet t k

/-- Model of Python `k in d`. -/
def dictContains (d : Dict) (k : String) : Bool :=
  (dictGet d k).isSome

/-- Model of Python `d[k] = v`: replace the value at the first entry
with key `k`, or append a new entry. -/
def dictInsert (d : Dict) (k : String) (v : PyValue) : Dict :=
  match d with
  | [] => [(k, v)]
  | p :: t => if p.1 == k then (k, v) :: t else p :: dictInsert t k v

/-- Model of the Python merge `\x7b**a, **b\x7d`: assign every entry of
`b` into `a` in order. -/
def dictMerge (a b : Dict) : Dict :=
  b.foldl (fun d p => dictInsert d p.1 p.2) a

/-- Keys of the association list are pairwise distinct (always true of a
list built by `dict` operations). -/
def keysNodup (d : Dict) : Bool :=
  match d with
  | [] => true
  | p :: t => !(t.any (fun q => q.1 == p.1)) && keysNodup t

/-- Model of a Python text stream (`TextIO`): its full contents and the
current read position, counted in characters. -/
structure TextStream where
  data : String
  pos : Nat
  closed : Bool
deriving Repr

/-- Modelled from the spec: `cleo/io/inputs/argument.py` is not under
`src/`; per the spec an Argument spec has a unique name, a required
flag, a list flag and a default value (absent default is Python None,
embedded as `PyValue.none`). -/
structure Argument where
  name : String
  required : Bool
  is_list : Bool
  default : PyValue
deriving Repr

/-- Embeds `Argument.is_required()`. -/
def Argument.is_required (a : Argument) : Bool :=
  a.required

/-- Modelled from the spec: `cleo/io/inputs/option.py` is not under
`src/`; per the spec an Option spec has a unique name, a flag telling
whether it accepts a value, and a default. -/
structure OptionSpec where
  name : String
  accepts_value : Bool
  default : PyValue
deriving Repr

/-- Modelled from the spec: `cleo/io/inputs/definition.py` is not under
`src/`; per the spec a Definition is an ordered sequence of Argument
specs plus a catalog of Option specs, immutable after construction. -/
structure Definition where
  arguments : List Argument
  options : List OptionSpec
deriving Repr

/-- Model of the fresh empty `Definition()` installed by
`Input.__init__` when no definition is supplied. -/
def Definition.mkEmpty : Definition :=
  { arguments := [], options := [] }

/-- Modelled from the spec: `Definition.has_argument(name)` is an
existence check by name. -/
def Definition.has_argument (d : Definition) (name : String) : Bool :=
  d.arguments.any (fun a => a.name == name)

/-- Modelled from the spec: `Definition.argument(name)` returns the
Argument spec, failing with a LookupError kind when absent. -/
def Definition.argument (d : Definition) (name : String) :
    Except PyError Argument :=
  match d.arguments.find? (fun a => a.name == name) with
  | some a => Except.ok a
  | Option.none =>
      Except.error (PyError.valueException
        ("The \"" ++ name ++ "\" argument does not exist"))

/-- Modelled from the spec: `Definition.argument_defaults` is a total
map over all declared argument names, giving each spec's default. -/
def Definition.argument_defaults (d : Definition) : Dict :=
  d.arguments.map (fun a => (a.name, a.default))

/-- Modelled from the spec: `Definition.has_option(name)` is an
existence check by name. -/
def Definition.has_option (d : Definition) (name : String) : Bool :=
  d.options.any (fun o => o.name == name)

/-- Modelled from the spec: `Definition.option(name)` returns the
Option spec, failing with a LookupError kind when absent. -/
def Definition.option (d : Definition) (name : String) :
    Except PyError OptionSpec :=
  match d.options.find? (fun o => o.name == name) with
  | some o => Except.ok o
  | Option.none =>
      Except.error (PyError.valueException
        ("The \"--" ++ name ++ "\" option does not exist"))

/-- Modelled from the spec: `Definition.option_defaults` is a total map
over all declared option names, giving each spec's default. -/
def Definition.option_defaults (d : Definition) : Dict :=
  d.options.map (fun o => (o.name, o.default))

/-- State of an `Input` object: the fields set by `Input.__init__`
(`_definition`, `_stream`, `_options`, `_arguments`, `_interactive`). -/
structure InputState where
  definition : Definition
  stream : Option TextStream
  options : Dict
  arguments : Dict
  interactive : Bool
deriving Repr

/-- Embeds the property `Input.arguments`:
`\x7b**self._definition.argument_defaults, **self._arguments\x7d`. -/
def Input.arguments (st : InputState) : Dict :=
  dictMerge (Definition.argument_defaults st.definition) st.arguments

/-- Embeds the property `Input.options`:
`\x7b**self._definition.option_defaults, **self._options\x7d`. -/
def Input.options (st : InputState) : Dict :=
  dictMerge (Definition.option_defaults st.definition) st.options

/-- Embeds `Input.is_interactive`. -/
def Input.is_interactive (st : InputState) : Bool :=
  st.interactive

/-- Embeds `Input.interactive(interactive)`. -/
def Input.interactive (st : InputState) (flag : Bool) : InputState :=
  { st with interactive := flag }

/-- Embeds `Input.set_stream(stream)`. -/
def Input.set_stream (st : InputState) (stream : TextStream) : InputState :=
  { st with stream := some stream }

/-- Embeds `Input.read(length, default)`: if not interactive, return
`default` without touching the stream; otherwise read `length`
characters from `self._stream` (an absent stream raises
AttributeError, as attribute access on None does in Python). -/
def Input.read (st : InputState) (length : Nat) (default : Option String) :
    Except PyError (Option String) × InputState :=
  if !st.interactive then
    (Except.ok default, st)
  else
    match st.stream with
    | Option.none =>
        (Except.error (PyError.attributeError
          "NoneType object has no attribute read"), st)
    | some s =>
        let chunk := String.mk (List.take length (List.drop s.pos s.data.toList))
        (Except.ok (some chunk),
         { st with stream := some { s with pos := s.pos + chunk.length } })

/-- Characters of one line, up to and including the first newline. -/
def lineTake (cs : List Char) : List Char :=
  match cs with
  | [] => []
  | c :: t => if c = Char.ofNat 10 then [c] else c :: lineTake t

/-- Embeds `Input.read_line(length, default)`: if not interactive,
return `default` without touching the stream; otherwise read one line
(optionally capped at `length` characters) from `self._stream`. -/
def Input.read_line (st : InputState) (length : Option Nat)
    (default : Option String) :
    Except PyError (Option String) × InputState :=
  if !st.interactive then
    (Except.ok default, st)
  else
    match st.stream with
    | Option.none =>
        (Except.error (PyError.attributeError
          "NoneType object has no attribute readline"), st)
    | some s =>
        let rest := List.drop s.pos s.data.toList
        let cs := lineTake rest
        let cs :=
          match length with
          | some n => List.take n cs
          | Option.none => cs
        let line := String.mk cs
        (Except.ok (some line),
         { st with stream := some { s with pos := s.pos + line.length } })

/-- Embeds `Input.bind(definition)`: reset `_arguments` and `_options`
to empty, store the definition, then invoke the abstract parse strategy
`self._parse()` (supplied here as the function `parse`, since `_parse`
raises NotImplementedError in the base class and is implemented by
concrete collaborators). -/
def Input.bind (st : InputState) (definition : Definition)
    (parse : InputState → InputState) : InputState :=
  parse { st with arguments := [], options := [], definition := definition }

/-- Names accumulated by the loop of `Input.validate()`: every argument
of the definition, in declaration order, whose name is not in
`_arguments` and which is required. -/
def Input.missing_required (st : InputState) : List String :=
  (st.definition.arguments.filter
    (fun a => !(dictContains st.arguments a.name) && a.is_required)).map
    Argument.name

/-- Embeds `Input.validate()`: collect the names of all required
arguments of the definition that are absent from `_arguments`, in
declaration order, and raise RuntimeException naming all of them if any
were collected. The second component is the object state after the
call. -/
def Input.validate (st : InputState) : Except PyError Unit × InputState :=
  let missing_arguments := Input.missing_required st
  if missing_arguments.isEmpty then
    (Except.ok (), st)
  else
    (Except.error (PyError.runtimeException
      ("Not enough arguments (missing: \"" ++
        String.intercalate ", " missing_arguments ++ "\")")), st)

/-- Embeds `Input.argument(name)`: ValueException when the definition
has no such argument; the bound value when `name in self._arguments`;
otherwise `self._definition.argument(name).default`. -/
def Input.argument (st : InputState) (name : String) :
    Except PyError PyValue :=
  if !(Definition.has_argument st.definition name) then
    Except.error (PyError.valueException
      ("The argument \"" ++ name ++ "\" does not exist"))
  else
    match dictGet st.arguments name with
    | some v => Except.ok v
    | Option.none =>
        match Definition.argument st.definition name with
        | Except.ok a => Except.ok a.default
        | Except.error e => Except.error e

/-- Embeds `Input.set_argument(name, value)`: ValueException when the
definition has no such argument; otherwise assign
`self._arguments[name] = value`. -/
def Input.set_argument (st : InputState) (name : String) (value : PyValue) :
    Except PyError Unit × InputState :=
  if !(Definition.has_argument st.definition name) then
    (Except.error (PyError.valueException
      ("The argument \"" ++ name ++ "\" does not exist")), st)
  else
    (Except.ok (), { st with arguments := dictInsert st.arguments name value })

/-- Embeds `Input.has_argument(name)`: delegates to the definition. -/
def Input.has_argument (st : InputState) (name : String) : Bool :=
  Definition.has_argument st.definition name

/-- Embeds `Input.option(name)`: mirror of `Input.argument` on the
options namespace. -/
def Input.option (st : InputState) (name : String) :
    Except PyError PyValue :=
  if !(Definition.has_option st.definition name) then
    Except.error (PyError.valueException
      ("The option \"--" ++ name ++ "\" does not exist"))
  else
    match dictGet st.options name with
    | some v => Except.ok v
    | Option.none =>
        match Definition.option st.definition name with
        | Except.ok o => Except.ok o.default
        | Except.error e => Except.error e

/-- Embeds `Input.set_option(name, value)`: mirror of
`Input.set_argument` on the options namespace. -/
def Input.set_option (st : InputState) (name : String) (value : PyValue) :
    Except PyError Unit × InputState :=
  if !(Definition.has_option st.definition name) then
    (Except.error (PyError.valueException
      ("The option \"--" ++ name ++ "\" does not exist")), st)
  else
    (Except.ok (), { st with options := dictInsert st.options name value })

/-- Embeds `Input.has_option(name)`: delegates to the definition. -/
def Input.has_option (st : InputState) (name : String) : Bool :=
  Definition.has_option st.definition name

/-- Fields as initialized at the top of `Input.__init__`: fresh empty
definition, no stream, empty value maps, interactive. -/
def Input.freshState : InputState :=
  { definition := Definition.mkEmpty, stream := Option.none,
    options := [], arguments := [], interactive := true }

/-- Embeds `Input.__init__(definition)`: initialize all fields
(`Input.freshState`); when a definition is given, `bind` it (running
the parse strategy) and then `validate`, propagating any validation
failure out of construction. -/
def Input.init (definition : Option Definition)
    (parse : InputState → InputState) : Except PyError InputState :=
  match definition with
  | Option.none => Except.ok Input.freshState
  | some d =>
      let st := Input.bind Input.freshState d parse
      match (Input.validate st).1 with
      | Except.ok _ => Except.ok (Input.validate st).2
      | Except.error e => Except.error e

/-- Modelled from the spec: `cleo._compat.shell_quote` is not under
`src/`; the spec says only that it turns a token into a shell-safe
literal, modelled here as wrapping in single quotes. It is consumed by
`escape_token` on a branch that is never reached. -/
def shell_quote (token : String) : String :=
  String.append (String.append (String.singleton (Char.ofNat 39)) token)
    (String.singleton (Char.ofNat 39))

/-- Models the call `re.match("^[\w-]+$")` appearing in
`Input.escape_token`: CPython `re.match(pattern, string)` requires a
string argument, so invoking it with the pattern alone raises TypeError
before any matching happens, and no match result is ever produced. -/
def re_match_missing_string : Except PyError Bool :=
  Except.error (PyError.typeError
    "match() missing 1 required positional argument: string")

/-- Embeds `Input.escape_token(token)`: test the token against the
word-like pattern (via the faulty one-argument `re.match` call) and
either pass it through or shell-quote it. -/
def Input.escape_token (token : String) : Except PyError String :=
  match re_match_missing_string with
  | Except.ok matched =>
      if matched then Except.ok token else Except.ok (shell_quote token)
  | Except.error e => Except.error e

/-- Modelled from the spec: verbosity levels of the output side (the
`Verbosity` enum of `cleo/io/outputs/output.py`, not under `src/`). -/
inductive Verbosity where
  | quiet
  | normal
  | verbose
  | very_verbose
  | debug
deriving DecidableEq, Repr

/-- Modelled from the spec: the Application collaborator exposes a
Definition (only `application.definition` is consumed by the
harness). -/
structure Application where
  definition : Definition

/-- Modelled from the spec: the Command contract consumed by the
harness exposes `name` and an optional `application` reference (its
`run(io)` method is passed to `execute` as an explicit function). -/
structure Command where
  name : String
  application : Option Application

/-- Modelled from the spec: the buffered I/O pair assembled by the
harness. `inputArgs` is the literal string held by the fresh
`StringInput`, `inputStream` its attached stream, `interactive` the
input's interactivity flag (a fresh input is interactive), `verbosity`
and `decorated` the output-side settings. -/
structure BufferedIo where
  inputArgs : String
  inputStream : Option TextStream
  interactive : Bool
  verbosity : Verbosity
  decorated : Bool

/-- State of a `CommandTester`: the command under test, the buffered
I/O pair and the stored status code (`None` before any `execute`). -/
structure CommandTester where
  command : Command
  io : BufferedIo
  status_code : Option Int

/-- The I/O-assembly lines of `CommandTester.execute`: install a fresh
`StringInput` built from `args` (replacing any previous input stream
and restoring the fresh input's interactivity), attach `inputs` as a
stream when given, and apply each of the `interactive`, `verbosity` and
`decorated` overrides that is given. -/
def CommandTester.assembleIo (io0 : BufferedIo) (args : String)
    (inputs : Option String) (interactive : Option Bool)
    (verbosity : Option Verbosity) (decorated : Option Bool) :
    BufferedIo :=
  let io := { io0 with
              inputArgs := args
              inputStream := Option.none
              interactive := true }
  let io :=
    match inputs with
    | some s =>
        { io with inputStream := some { data := s, pos := 0, closed := false } }
    | Option.none => io
  let io :=
    match interactive with
    | some b => { io with interactive := b }
    | Option.none => io
  let io :=
    match verbosity with
    | some v => { io with verbosity := v }
    | Option.none => io
  match decorated with
  | some b => { io with decorated := b }
  | Option.none => io

/-- Embeds `CommandTester.execute(args, inputs, interactive, verbosity,
decorated)`: prefix `args` with the command name when the command has
an application whose definition declares a `command` argument;
assemble the I/O pair (`CommandTester.assembleIo`); run the command
(its `run` method is the explicit function `run`) against the
assembled I/O; store and return the status code. -/
def CommandTester.execute (t : CommandTester)
    (run : Command → BufferedIo → Int) (args : String)
    (inputs : Option String) (interactive : Option Bool)
    (verbosity : Option Verbosity) (decorated : Option Bool) :
    Int × CommandTester :=
  let args :=
    match t.command.application with
    | some application =>
        if Definition.has_argument application.definition "command" then
          t.command.name ++ " " ++ args
        else args
    | Option.none => args
  let io := CommandTester.assembleIo t.io args inputs interactive
    verbosity decorated
  let status := run t.command io
  (status, { t with io := io, status_code := some status })
/-- Concrete fixture: a required `name` argument with no default. -/
def argName : Argument :=
  { name := "name", required := true, is_list := false,
    default := PyValue.none }

/-- Concrete fixture: an optional `greeting` argument defaulting to
`"hello"`. -/
def argGreeting : Argument :=
  { name := "greeting", required := false, is_list := false,
    default := PyValue.str "hello" }

/-- Concrete fixture: a value-less `verbose` option defaulting to
false. -/
def optVerbose : OptionSpec :=
  { name := "verbose", accepts_value := false,
    default := PyValue.bool false }

/-- Concrete fixture: the definition of the greet scenario from the
spec (required `name`, optional `greeting`, option `verbose`). -/
def defnGreet : Definition :=
  { arguments := [argName, argGreeting], options := [optVerbose] }

/-- Concrete fixture: a definition requiring arguments `a`, `b` and
`c`. -/
def defnABC : Definition :=
  { arguments :=
      [ { name := "a", required := true, is_list := false,
          default := PyValue.none },
        { name := "b", required := true, is_list := false,
          default := PyValue.none },
        { name := "c", required := true, is_list := false,
          default := PyValue.none } ],
    options := [] }

/-- Concrete fixture: an input bound to `defnGreet` with `name` bound
to `"world"`. -/
def stBound : InputState :=
  { definition := defnGreet, stream := Option.none, options := [],
    arguments := [("name", PyValue.str "world")], interactive := true }

/-- Concrete fixture: an input bound to `defnGreet` with a prior
binding for `greeting`. -/
def stPrior : InputState :=
  { definition := defnGreet, stream := Option.none, options := [],
    arguments := [("greeting", PyValue.str "hi")], interactive := true }

/-- Concrete fixture: an input bound to `defnABC` with nothing bound. -/
def stABC : InputState :=
  { definition := defnABC, stream := Option.none, options := [],
    arguments := [], interactive := true }

/-- Concrete fixture: an interactive input with an attached stream. -/
def stStream : InputState :=
  { definition := defnGreet,
    stream := some { data := "abcdef", pos := 1, closed := false },
    options := [], arguments := [("name", PyValue.str "world")],
    interactive := true }

/-- Concrete fixture: a parse strategy binding `name` to `"world"` (the
shape a concrete `_parse` takes, filling values via the setters). -/
def parseWorld : InputState → InputState :=
  fun s =>
    { s with arguments := dictInsert s.arguments "name" (PyValue.str "world") }

/-- Concrete fixture: a command registered as `greet` under an
application whose definition declares a `command` argument. -/
def cmdGreet : Command :=
  { name := "greet",
    application := some
      { definition :=
          { arguments :=
              [ { name := "command", required := true, is_list := false,
                  default := PyValue.none } ],
            options := [] } } }

/-- Concrete fixture: a fresh tester for `cmdGreet`. -/
def testerGreet : CommandTester :=
  { command := cmdGreet,
    io := { inputArgs := "", inputStream := Option.none,
            interactive := true, verbosity := Verbosity.normal,
            decorated := false },
    status_code := Option.none }

/-- Concrete fixture: a run function returning status 0. -/
def runZero : Command → BufferedIo → Int :=
  fun _ _ => 0

theorem dictGet_insert (d : Dict) (k : String) (v : PyValue) (k' : String) :
    dictGet (dictInsert d k v) k' = if k' = k then some v else dictGet d k' := by
  induction d with
  | nil =>
      by_cases h : k' = k
      · simp [dictInsert, dictGet, beq_iff_eq, h]
      · simp [dictInsert, dictGet, beq_iff_eq, h, Ne.symm h]
  | cons p t ih =>
      by_cases hp : p.1 = k
      · by_cases h : k' = k
        · simp [dictInsert, dictGet, beq_iff_eq, hp, h]
        · simp [dictInsert, dictGet, beq_iff_eq, hp, h, Ne.symm h]
      · by_cases h1 : p.1 = k'
        · by_cases h2 : k' = k
          · exact absurd (h1.trans h2) hp
          · simp [dictInsert, dictGet, beq_iff_eq, hp, h1, h2]
        · simp [dictInsert, dictGet, beq_iff_eq, hp, h1, ih]

theorem dictContains_iff (d : Dict) (k : String) :
    dictContains d k = true ↔ ∃ v, dictGet d k = some v := by
  simp [dictContains, Option.isSome_iff_exists]

theorem dictGet_eq_none (d : Dict) (k : String)
    (h : ∀ q ∈ d, q.1 ≠ k) : dictGet d k = Option.none := by
  induction d with
  | nil => rfl
  | cons p t ih =>
      have h1 : (p.1 == k) = false :=
        beq_eq_false_iff_ne.mpr (h p (List.mem_cons_self p t))
      rw [dictGet, if_neg (by simp [h1])]
      exact ih (fun q hq => h q (List.mem_cons_of_mem p hq))

theorem dictGet_merge_not_mem :
    ∀ (b a : Dict) (k : String), dictGet b k = Option.none →
      dictGet (dictMerge a b) k = dictGet a k := by
  intro b
  induction b with
  | nil => intro a k _; rfl
  | cons p t ih =>
      intro a k h
      rw [dictGet] at h
      split at h
      · exact absurd h (by simp)
      · rename_i hcond
        show dictGet (dictMerge (dictInsert a p.1 p.2) t) k = dictGet a k
        rw [ih _ _ h, dictGet_insert]
        have hne : k ≠ p.1 := by
          intro hh
          exact hcond (by simp [hh])
        simp [hne]

theorem dictGet_merge_mem :
    ∀ (b a : Dict) (k : String) (v : PyValue), keysNodup b = true →
      dictGet b k = some v → dictGet (dictMerge a b) k = some v := by
  intro b
  induction b with
  | nil => intro a k v _ h; simp [dictGet] at h
  | cons p t ih =>
      intro a k v hnd h
      rw [keysNodup, Bool.and_eq_true, Bool.not_eq_true'] at hnd
      obtain ⟨hany, hndt⟩ := hnd
      rw [dictGet] at h
      split at h
      · rename_i hcond
        have hk : p.1 = k := by
          have : (p.1 == k) = true := by simpa using hcond
          exact beq_iff_eq.mp this
        have hv : p.2 = v := by
          simpa using h
        have ht : dictGet t k = Option.none := by
          apply dictGet_eq_none
          intro q hq hqk
          have : (q.1 == p.1) = true := beq_iff_eq.mpr (hqk.trans hk.symm)
          have hfalse : t.any (fun q => q.1 == p.1) = true :=
            List.any_eq_true.mpr ⟨q, hq, this⟩
          rw [hany] at hfalse
          exact Bool.false_ne_true hfalse
        show dictGet (dictMerge (dictInsert a p.1 p.2) t) k = some v
        rw [dictGet_merge_not_mem t _ k ht, dictGet_insert]
        simp [hk.symm, hv]
      · exact ih (dictInsert a p.1 p.2) k v hndt h

theorem dictGet_map_assoc {α : Type} (key : α → String) (val : α → PyValue) :
    ∀ (l : List α) (name : String),
      dictGet (l.map (fun a => (key a, val a))) name
        = (l.find? (fun a => key a == name)).map val := by
  intro l
  induction l with
  | nil => intro name; rfl
  | cons a t ih =>
      intro name
      by_cases h : key a = name
      · simp [dictGet, List.find?, beq_iff_eq.mpr h]
      · simp [dictGet, List.find?, beq_eq_false_iff_ne.mpr h, ih]

theorem Definition.argument_of_has (d : Definition) (name : String)
    (h : Definition.has_argument d name = true) :
    ∃ a, Definition.argument d name = Except.ok a ∧ a.name = name := by
  rw [Definition.has_argument, List.any_eq_true] at h
  have hsome : ∃ a, d.arguments.find? (fun a => a.name == name) = some a := by
    rw [← Option.isSome_iff_exists, List.find?_isSome]
    exact h
  obtain ⟨a, hfind⟩ := hsome
  refine ⟨a, ?_, ?_⟩
  · rw [Definition.argument, hfind]
  · have hp := List.find?_some hfind
    exact beq_iff_eq.mp hp

theorem Definition.argument_of_not_has (d : Definition) (name : String)
    (h : Definition.has_argument d name = false) :
    Definition.argument d name =
      Except.error (PyError.valueException
        ("The \"" ++ name ++ "\" argument does not exist")) := by
  rw [Definition.has_argument] at h
  have hnone : d.arguments.find? (fun a => a.name == name) = Option.none := by
    rw [List.find?_eq_none]
    intro a ha hpa
    have : d.arguments.any (fun a => a.name == name) = true :=
      List.any_eq_true.mpr ⟨a, ha, hpa⟩
    rw [h] at this
    exact Bool.false_ne_true this
  rw [Definition.argument, hnone]

theorem Definition.option_of_has (d : Definition) (name : String)
    (h : Definition.has_option d name = true) :
    ∃ o, Definition.option d name = Except.ok o ∧ o.name = name := by
  rw [Definition.has_option, List.any_eq_true] at h
  have hsome : ∃ o, d.options.find? (fun o => o.name == name) = some o := by
    rw [← Option.isSome_iff_exists, List.find?_isSome]
    exact h
  obtain ⟨o, hfind⟩ := hsome
  refine ⟨o, ?_, ?_⟩
  · rw [Definition.option, hfind]
  · have hp := List.find?_some hfind
    exact beq_iff_eq.mp hp

theorem Input.argument_of_bound (st : InputState) (name : String) (v : PyValue)
    (hhas : Definition.has_argument st.definition name = true)
    (hget : dictGet st.arguments name = some v) :
    Input.argument st name = Except.ok v := by
  simp [Input.argument, hhas, hget]

theorem Input.argument_of_default (st : InputState) (name : String)
    (a : Argument)
    (hhas : Definition.has_argument st.definition name = true)
    (hget : dictGet st.arguments name = Option.none)
    (hdef : Definition.argument st.definition name = Except.ok a) :
    Input.argument st name = Except.ok a.default := by
  simp [Input.argument, hhas, hget, hdef]

theorem Definition.option_of_not_has (d : Definition) (name : String)
    (h : Definition.has_option d name = false) :
    Definition.option d name =
      Except.error (PyError.valueException
        ("The \"--" ++ name ++ "\" option does not exist")) := by
  rw [Definition.has_option] at h
  have hnone : d.options.find? (fun o => o.name == name) = Option.none := by
    rw [List.find?_eq_none]
    intro o ho hpo
    have : d.options.any (fun o => o.name == name) = true :=
      List.any_eq_true.mpr ⟨o, ho, hpo⟩
    rw [h] at this
    exact Bool.false_ne_true this
  rw [Definition.option, hnone]
theorem validate_eq (st : InputState) :
    Input.validate st =
      if (Input.missing_required st).isEmpty then (Except.ok (), st)
      else (Except.error (PyError.runtimeException
        ("Not enough arguments (missing: \"" ++
          String.intercalate ", " (Input.missing_required st) ++ "\")")), st) := rfl

theorem validate_snd (st : InputState) : (Input.validate st).2 = st := by
  rw [validate_eq]
  split <;> rfl

theorem missing_required_eq_nil_iff (st : InputState) :
    Input.missing_required st = [] ↔
      ∀ a ∈ st.definition.arguments, a.is_required = true →
        dictContains st.arguments a.name = true := by
  rw [Input.missing_required, List.map_eq_nil_iff, List.filter_eq_nil_iff]
  constructor
  · intro h a ha hreq
    have hna := h a ha
    by_cases hc : dictContains st.arguments a.name = true
    · exact hc
    · have hcf : dictContains st.arguments a.name = false := by
        cases hx : dictContains st.arguments a.name
        · rfl
        · exact absurd hx hc
      exact absurd (by simp [hcf, hreq] :
        (!(dictContains st.arguments a.name) && a.is_required) = true) hna
  · intro h a ha hcond
    rw [Bool.and_eq_true, Bool.not_eq_true'] at hcond
    have := h a ha hcond.2
    rw [hcond.1] at this
    exact Bool.false_ne_true this

theorem Definition.find?_of_argument_ok (d : Definition) (name : String)
    (a : Argument) (h : Definition.argument d name = Except.ok a) :
    d.arguments.find? (fun a => a.name == name) = some a := by
  rw [Definition.argument] at h
  cases hfind : d.arguments.find? (fun a => a.name == name) with
  | some a' =>
      rw [hfind] at h
      injection h with h'
      rw [h']
  | none =>
      rw [hfind] at h
      exact Except.noConfusion h

theorem Definition.find?_of_option_ok (d : Definition) (name : String)
    (o : OptionSpec) (h : Definition.option d name = Except.ok o) :
    d.options.find? (fun o => o.name == name) = some o := by
  rw [Definition.option] at h
  cases hfind : d.options.find? (fun o => o.name == name) with
  | some o' =>
      rw [hfind] at h
      injection h with h'
      rw [h']
  | none =>
      rw [hfind] at h
      exact Except.noConfusion h

theorem dictGet_argument_defaults (d : Definition) (name : String) :
    dictGet (Definition.argument_defaults d) name
      = (d.arguments.find? (fun a => a.name == name)).map Argument.default :=
  dictGet_map_assoc Argument.name Argument.default d.arguments name

theorem dictGet_option_defaults (d : Definition) (name : String) :
    dictGet (Definition.option_defaults d) name
      = (d.options.find? (fun o => o.name == name)).map OptionSpec.default :=
  dictGet_map_assoc OptionSpec.name OptionSpec.default d.options name

/-- C1: for every bound Input and every name, `argument(name)` raises
UnknownNameError (ValueException) exactly when the definition has no
such argument; when the definition has it, the call never fails and
returns the explicitly bound value when one is present, else the
definition's declared default for that name (possibly the
null-equivalent `PyValue.none`). -/
theorem c1_argument_access (st : InputState) (name : String) :
    (Definition.has_argument st.definition name = false →
      Input.argument st name =
        Except.error (PyError.valueException
          ("The argument \"" ++ name ++ "\" does not exist")))
  ∧ (Definition.has_argument st.definition name = true →
      (∃ v, Input.argument st name = Except.ok v)
    ∧ (∀ v, dictGet st.arguments name = some v →
        Input.argument st name = Except.ok v)
    ∧ (dictGet st.arguments name = Option.none →
        ∀ a, Definition.argument st.definition name = Except.ok a →
          Input.argument st name = Except.ok a.default)) := by
  constructor
  · intro h
    simp [Input.argument, h]
  · intro h
    refine ⟨?_, ?_, ?_⟩
    · cases hget : dictGet st.arguments name with
      | some v => exact ⟨v, Input.argument_of_bound st name v h hget⟩
      | none =>
          obtain ⟨a, hdef, _⟩ := Definition.argument_of_has st.definition name h
          exact ⟨a.default, Input.argument_of_default st name a h hget hdef⟩
    · intro v hget
      exact Input.argument_of_bound st name v h hget
    · intro hget a hdef
      exact Input.argument_of_default st name a h hget hdef

/-- Witness for C1 on `stBound`: the bound value, a defaulted value,
and the UnknownNameError case at concrete inputs. -/
theorem c1_argument_access_witness :
    Input.argument stBound "name" = Except.ok (PyValue.str "world")
  ∧ Input.argument stBound "greeting" = Except.ok (PyValue.str "hello")
  ∧ Input.argument stBound "missing" =
      Except.error (PyError.valueException
        "The argument \"missing\" does not exist") := by
  refine ⟨?_, ?_, ?_⟩
  · exact ((c1_argument_access stBound "name").2 (by decide)).2.1
      (PyValue.str "world") rfl
  · exact ((c1_argument_access stBound "greeting").2 (by decide)).2.2 rfl
      argGreeting rfl
  · exact (c1_argument_access stBound "missing").1 (by decide)

/-- C2: `validate()` succeeds exactly when every required argument name
is present in the explicitly bound arguments map; otherwise it fails
with a single ValidationError (RuntimeException) whose message lists
the names of all missing required arguments, comma-joined, in the
definition's declaration order (report-all, not fail-fast). -/
theorem c2_validate_report_all (st : InputState) :
    ((Input.validate st).1 = Except.ok () ↔
      ∀ a ∈ st.definition.arguments, a.is_required = true →
        dictContains st.arguments a.name = true)
  ∧ (Input.missing_required st ≠ [] →
      (Input.validate st).1 = Except.error (PyError.runtimeException
        ("Not enough arguments (missing: \"" ++
          String.intercalate ", " (Input.missing_required st) ++ "\")")))
  ∧ (∀ n, n ∈ Input.missing_required st ↔
      ∃ a ∈ st.definition.arguments, a.name = n ∧ a.is_required = true ∧
        dictContains st.arguments a.name = false)
  ∧ (Input.missing_required st).Sublist
      (st.definition.arguments.map Argument.name) := by
  refine ⟨?_, ?_, ?_, ?_⟩
  · constructor
    · intro hok
      apply (missing_required_eq_nil_iff st).mp
      by_cases hc : (Input.missing_required st).isEmpty
      · exact List.isEmpty_iff.mp hc
      · rw [validate_eq] at hok
        simp [hc] at hok
    · intro h
      have hnil := (missing_required_eq_nil_iff st).mpr h
      rw [validate_eq]
      simp [hnil]
  · intro hne
    have hf : (Input.missing_required st).isEmpty = false := by
      cases hx : Input.missing_required st with
      | nil => exact absurd hx hne
      | cons y ys => rfl
    rw [validate_eq]
    simp [hf]
  · intro n
    simp only [Input.missing_required, List.mem_map, List.mem_filter,
      Bool.and_eq_true, Bool.not_eq_true']
    constructor
    · rintro ⟨a, ⟨ha, hcf, hreq⟩, rfl⟩
      exact ⟨a, ha, rfl, hreq, hcf⟩
    · rintro ⟨a, ha, rfl, hreq, hcf⟩
      exact ⟨a, ⟨ha, hcf, hreq⟩, rfl⟩
  · exact List.Sublist.map Argument.name (List.filter_sublist _)

/-- Witness for C2 on `stABC`: all three missing required names are
reported, comma-joined in declaration order. -/
theorem c2_validate_report_all_witness :
    (Input.validate stABC).1 = Except.error (PyError.runtimeException
      "Not enough arguments (missing: \"a, b, c\")") := by
  have h := (c2_validate_report_all stABC).2.1 (by decide)
  exact h

/-- C3: for every declared argument name `x` and value `v`,
`set_argument(x, v)` succeeds, overwrites any prior binding
unconditionally, and immediately afterwards `argument(x)` returns `v`,
regardless of any definition default for `x`. -/
theorem c3_set_argument_overrides (st : InputState) (x : String)
    (v : PyValue) (h : Definition.has_argument st.definition x = true) :
    (Input.set_argument st x v).1 = Except.ok ()
  ∧ dictGet ((Input.set_argument st x v).2).arguments x = some v
  ∧ Input.argument ((Input.set_argument st x v).2) x = Except.ok v := by
  have hset : Input.set_argument st x v =
      (Except.ok (), { st with arguments := dictInsert st.arguments x v }) := by
    simp [Input.set_argument, h]
  refine ⟨by rw [hset], ?_, ?_⟩
  · rw [hset]
    simpa using dictGet_insert st.arguments x v x
  · rw [hset]
    apply Input.argument_of_bound
    · exact h
    · simpa using dictGet_insert st.arguments x v x

/-- Witness for C3 on `stPrior`: `greeting` has both a definition
default (`"hello"`) and a prior binding (`"hi"`); after
`set_argument("greeting", "bye")` the accessor returns `"bye"`. -/
theorem c3_set_argument_overrides_witness :
    Input.argument ((Input.set_argument stPrior "greeting"
      (PyValue.str "bye")).2) "greeting" = Except.ok (PyValue.str "bye") :=
  (c3_set_argument_overrides stPrior "greeting" (PyValue.str "bye")
    (by decide)).2.2

/-- C6: `validate()` is state-preserving (the post-call state equals
the pre-call state, so definition, bound arguments, bound options,
interactivity flag and stream are all unchanged, whether it succeeds or
fails) and idempotent (a second call without intervening mutation
produces the identical outcome). -/
theorem c6_validate_idempotent (st : InputState) :
    (Input.validate st).2 = st
  ∧ (Input.validate ((Input.validate st).2)).1 = (Input.validate st).1 := by
  have h2 : (Input.validate st).2 = st := validate_snd st
  exact ⟨h2, by rw [h2]⟩

/-- C10: `escape_token` never returns normally: for every token the
one-argument `re.match(pattern)` call raises TypeError before either
the pass-through branch or the shell-quoting branch is reached. -/
theorem c10_escape_token_raises (token : String) :
    Input.escape_token token
      = Except.error (PyError.typeError
          "match() missing 1 required positional argument: string")
  ∧ ∀ s, Input.escape_token token ≠ Except.ok s := by
  constructor
  · rfl
  · intro s h
    rw [show Input.escape_token token
        = Except.error (PyError.typeError
            "match() missing 1 required positional argument: string")
      from rfl] at h
    exact Except.noConfusion h

/-- Witness for C10 at a concrete word-like token (which the intended
code would have passed through unchanged). -/
theorem c10_escape_token_raises_witness :
    Input.escape_token "abc"
      = Except.error (PyError.typeError
          "match() missing 1 required positional argument: string") :=
  (c10_escape_token_raises "abc").1
theorem assembleIo_inputArgs (io0 : BufferedIo) (args : String)
    (inputs : Option String) (inter : Option Bool)
    (verb : Option Verbosity) (dec : Option Bool) :
    (CommandTester.assembleIo io0 args inputs inter verb dec).inputArgs
      = args := by
  cases inputs <;> cases inter <;> cases verb <;> cases dec <;> rfl

/-- C4: with the interactivity flag off, `read` and `read_line` return
the caller-supplied default and leave the whole state (including the
possibly absent stream) untouched; with the flag on and a stream with
at least `length` characters remaining, `read` returns exactly `length`
characters from the stream and advances it by `length`. -/
theorem c4_read_short_circuit (st : InputState) (length : Nat)
    (default : Option String) (cap : Option Nat) :
    (st.interactive = false →
      Input.read st length default = (Except.ok default, st)
    ∧ Input.read_line st cap default = (Except.ok default, st))
  ∧ (st.interactive = true →
      ∀ s, st.stream = some s →
        length ≤ (List.drop s.pos s.data.toList).length →
          Input.read st length default =
            (Except.ok (some (String.mk
              (List.take length (List.drop s.pos s.data.toList)))),
             { st with stream := some { s with pos := s.pos + length } })
        ∧ (String.mk (List.take length
            (List.drop s.pos s.data.toList))).length = length) := by
  constructor
  · intro h
    constructor
    · simp [Input.read, h]
    · simp [Input.read_line, h]
  · intro h s hs hlen
    have hchunk : (String.mk (List.take length
        (List.drop s.pos s.data.toList))).length = length := by
      rw [show (String.mk (List.take length
          (List.drop s.pos s.data.toList))).length
        = (List.take length (List.drop s.pos s.data.toList)).length from rfl]
      rw [List.length_take]
      exact Nat.min_eq_left hlen
    refine ⟨?_, hchunk⟩
    rw [Input.read, h, hs]
    rw [show (!true) = false from rfl]
    rw [if_neg (by exact Bool.false_ne_true)]
    dsimp only
    rw [hchunk]

/-- Witness for C4: non-interactive `read` returns the default with no
stream attached, and interactive `read` returns the next 3 characters
of the stream. -/
theorem c4_read_short_circuit_witness :
    Input.read (Input.interactive stBound false) 10 (some "X")
      = (Except.ok (some "X"), Input.interactive stBound false)
  ∧ (Input.read stStream 3 Option.none).1 = Except.ok (some "bcd") := by
  constructor
  · exact ((c4_read_short_circuit (Input.interactive stBound false) 10
      (some "X") Option.none).1 rfl).1
  · have h := ((c4_read_short_circuit stStream 3 Option.none Option.none).2 rfl
      { data := "abcdef", pos := 1, closed := false } rfl (by decide)).1
    rw [h]
    rfl

/-- C5: for every bound Input whose dict keys are unique (an invariant
of Python dicts), the `arguments` property contains every name declared
in the definition, mapping it to the explicitly bound value when one
exists and otherwise to the declared default (bound values take
precedence over defaults, never the reverse); symmetrically for the
`options` property. -/
theorem c5_merged_view_total (st : InputState) (name : String) :
    (keysNodup st.arguments = true →
      (Definition.has_argument st.definition name = true →
        dictContains (Input.arguments st) name = true)
    ∧ (∀ v, dictGet st.arguments name = some v →
        dictGet (Input.arguments st) name = some v)
    ∧ (dictGet st.arguments name = Option.none →
        ∀ a, Definition.argument st.definition name = Except.ok a →
          dictGet (Input.arguments st) name = some a.default))
  ∧ (keysNodup st.options = true →
      (Definition.has_option st.definition name = true →
        dictContains (Input.options st) name = true)
    ∧ (∀ v, dictGet st.options name = some v →
        dictGet (Input.options st) name = some v)
    ∧ (dictGet st.options name = Option.none →
        ∀ o, Definition.option st.definition name = Except.ok o →
          dictGet (Input.options st) name = some o.default)) := by
  constructor
  · intro hnd
    have hdefault : dictGet st.arguments name = Option.none →
        ∀ a, Definition.argument st.definition name = Except.ok a →
          dictGet (Input.arguments st) name = some a.default := by
      intro hget a hdef
      rw [show Input.arguments st
          = dictMerge (Definition.argument_defaults st.definition)
              st.arguments from rfl,
        dictGet_merge_not_mem st.arguments _ name hget,
        dictGet_argument_defaults,
        Definition.find?_of_argument_ok st.definition name a hdef]
      rfl
    refine ⟨?_, ?_, hdefault⟩
    · intro hhas
      rw [dictContains_iff]
      cases hget : dictGet st.arguments name with
      | some v => exact ⟨v, dictGet_merge_mem st.arguments _ name v hnd hget⟩
      | none =>
          obtain ⟨a, hdef, _⟩ :=
            Definition.argument_of_has st.definition name hhas
          exact ⟨a.default, hdefault hget a hdef⟩
    · intro v hget
      exact dictGet_merge_mem st.arguments _ name v hnd hget
  · intro hnd
    have hdefault : dictGet st.options name = Option.none →
        ∀ o, Definition.option st.definition name = Except.ok o →
          dictGet (Input.options st) name = some o.default := by
      intro hget o hdef
      rw [show Input.options st
          = dictMerge (Definition.option_defaults st.definition)
              st.options from rfl,
        dictGet_merge_not_mem st.options _ name hget,
        dictGet_option_defaults,
        Definition.find?_of_option_ok st.definition name o hdef]
      rfl
    refine ⟨?_, ?_, hdefault⟩
    · intro hhas
      rw [dictContains_iff]
      cases hget : dictGet st.options name with
      | some v => exact ⟨v, dictGet_merge_mem st.options _ name v hnd hget⟩
      | none =>
          obtain ⟨o, hdef, _⟩ :=
            Definition.option_of_has st.definition name hhas
          exact ⟨o.default, hdefault hget o hdef⟩
    · intro v hget
      exact dictGet_merge_mem st.options _ name v hnd hget

/-- Witness for C5 on `stBound`: the effective view holds the bound
value for `name`, the declared default for `greeting`, and the option
default for `verbose`. -/
theorem c5_merged_view_total_witness :
    dictGet (Input.arguments stBound) "name" = some (PyValue.str "world")
  ∧ dictGet (Input.arguments stBound) "greeting"
      = some (PyValue.str "hello")
  ∧ dictGet (Input.options stBound) "verbose" = some (PyValue.bool false) := by
  refine ⟨?_, ?_, ?_⟩
  · exact ((c5_merged_view_total stBound "name").1 (by decide)).2.1
      (PyValue.str "world") rfl
  · exact ((c5_merged_view_total stBound "greeting").1 (by decide)).2.2 rfl
      argGreeting rfl
  · exact ((c5_merged_view_total stBound "verbose").2 (by decide)).2.2 rfl
      optVerbose rfl

/-- C7: `bind` first resets both value maps to empty and stores the
definition, and only then invokes the parse strategy on the reset
state; `set_argument` and `set_option`, whatever their outcome, leave
every other field of the state unchanged, never invoke any parse
strategy, and change their own map at most at the given name. -/
theorem c7_bind_resets (st : InputState) (d : Definition)
    (parse : InputState → InputState) (x : String) (v : PyValue) :
    Input.bind st d parse = parse (Input.bind st d (fun s => s))
  ∧ Input.bind st d (fun s => s) =
      { definition := d, stream := st.stream, options := [],
        arguments := [], interactive := st.interactive }
  ∧ (((Input.set_argument st x v).2).options = st.options
    ∧ ((Input.set_argument st x v).2).definition = st.definition
    ∧ ((Input.set_argument st x v).2).stream = st.stream
    ∧ ((Input.set_argument st x v).2).interactive = st.interactive
    ∧ ∀ k, k ≠ x →
        dictGet ((Input.set_argument st x v).2).arguments k
          = dictGet st.arguments k)
  ∧ (((Input.set_option st x v).2).arguments = st.arguments
    ∧ ((Input.set_option st x v).2).definition = st.definition
    ∧ ((Input.set_option st x v).2).stream = st.stream
    ∧ ((Input.set_option st x v).2).interactive = st.interactive
    ∧ ∀ k, k ≠ x →
        dictGet ((Input.set_option st x v).2).options k
          = dictGet st.options k) := by
  refine ⟨rfl, rfl, ?_, ?_⟩
  · cases hhas : Definition.has_argument st.definition x with
    | true =>
        refine ⟨?_, ?_, ?_, ?_, ?_⟩ <;>
          simp only [Input.set_argument, hhas, Bool.not_true,
            Bool.false_eq_true, if_false]
        intro k hk
        rw [dictGet_insert]
        simp [hk]
    | false =>
        refine ⟨?_, ?_, ?_, ?_, ?_⟩ <;>
          simp [Input.set_argument, hhas]
  · cases hhas : Definition.has_option st.definition x with
    | true =>
        refine ⟨?_, ?_, ?_, ?_, ?_⟩ <;>
          simp only [Input.set_option, hhas, Bool.not_true,
            Bool.false_eq_true, if_false]
        intro k hk
        rw [dictGet_insert]
        simp [hk]
    | false =>
        refine ⟨?_, ?_, ?_, ?_, ?_⟩ <;>
          simp [Input.set_option, hhas]

/-- Witness for C7: binding `stBound` to `defnABC` with the identity
parse discards the prior `name` binding, and `set_argument` on
`greeting` leaves the `name` entry unchanged. -/
theorem c7_bind_resets_witness :
    Input.bind stBound defnABC (fun s => s) =
      { definition := defnABC, stream := Option.none, options := [],
        arguments := [], interactive := true }
  ∧ dictGet ((Input.set_argument stBound "greeting"
      (PyValue.str "hi")).2).arguments "name" = some (PyValue.str "world") := by
  constructor
  · exact (c7_bind_resets stBound defnABC (fun s => s) "greeting"
      (PyValue.str "hi")).2.1
  · have h := (c7_bind_resets stBound defnABC (fun s => s) "greeting"
      (PyValue.str "hi")).2.2.1.2.2.2.2 "name" (by decide)
    rw [h]
    rfl

/-- C8: `execute` prefixes `args` with the command's registered name
exactly when the command has a non-absent application whose definition
declares an argument named `command`; it then runs the command
synchronously against the assembled I/O, stores the returned status
code (readable via the `status_code` property) and returns that same
value. -/
theorem c8_execute_spec (t : CommandTester)
    (run : Command → BufferedIo → Int) (args : String)
    (inputs : Option String) (inter : Option Bool)
    (verb : Option Verbosity) (dec : Option Bool) (code : Int)
    (t' : CommandTester)
    (h : CommandTester.execute t run args inputs inter verb dec = (code, t')) :
    t'.status_code = some code
  ∧ code = run t.command t'.io
  ∧ ((match t.command.application with
      | some application =>
          Definition.has_argument application.definition "command"
      | Option.none => false) = true →
        t'.io.inputArgs = t.command.name ++ " " ++ args)
  ∧ ((match t.command.application with
      | some application =>
          Definition.has_argument application.definition "command"
      | Option.none => false) = false →
        t'.io.inputArgs = args) := by
  simp only [CommandTester.execute] at h
  injection h with hc ht
  subst hc
  subst ht
  refine ⟨rfl, rfl, ?_, ?_⟩
  · intro hm
    show (CommandTester.assembleIo t.io _ inputs inter verb dec).inputArgs = _
    rw [assembleIo_inputArgs]
    cases happ : t.command.application with
    | none =>
        rw [happ] at hm
        simp at hm
    | some app =>
        rw [happ] at hm
        dsimp only at hm ⊢
        exact if_pos hm
  · intro hm
    show (CommandTester.assembleIo t.io _ inputs inter verb dec).inputArgs = _
    rw [assembleIo_inputArgs]
    cases happ : t.command.application with
    | none =>
        rfl
    | some app =>
        rw [happ] at hm
        dsimp only at hm ⊢
        exact if_neg (by simp [hm])

/-- Witness for C8 on `testerGreet`: the args string is prefixed with
the registered name `greet`, and the status code 0 returned by the run
function is stored. -/
theorem c8_execute_spec_witness :
    ((CommandTester.execute testerGreet runZero "world" Option.none
        Option.none Option.none Option.none).2).io.inputArgs = "greet world"
  ∧ ((CommandTester.execute testerGreet runZero "world" Option.none
        Option.none Option.none Option.none).2).status_code = some 0 := by
  have h := c8_execute_spec testerGreet runZero "world" Option.none
    Option.none Option.none Option.none
    (CommandTester.execute testerGreet runZero "world" Option.none
      Option.none Option.none Option.none).1
    (CommandTester.execute testerGreet runZero "world" Option.none
      Option.none Option.none Option.none).2
    rfl
  constructor
  · exact h.2.2.1 (by decide)
  · rw [h.1]
    rfl

/-- C9: constructing an Input with an explicit definition performs
`bind` then `validate` inside the constructor, so construction raises
the validation error exactly when the parse strategy leaves a required
argument unbound, and any successfully constructed state is already
validated; constructing with no definition installs the fresh state
with an empty definition, never runs any parse strategy, and cannot
fail validation. -/
theorem c9_init_validates (d : Definition)
    (parse : InputState → InputState) :
    (∀ st, Input.init (some d) parse = Except.ok st →
        st = Input.bind Input.freshState d parse
      ∧ (Input.validate st).1 = Except.ok ())
  ∧ (∀ e, (Input.validate (Input.bind Input.freshState d parse)).1
        = Except.error e →
      Input.init (some d) parse = Except.error e)
  ∧ ((Input.validate (Input.bind Input.freshState d parse)).1
        = Except.ok () →
      Input.init (some d) parse
        = Except.ok (Input.bind Input.freshState d parse))
  ∧ (∀ parse2 : InputState → InputState,
      Input.init Option.none parse = Input.init Option.none parse2)
  ∧ Input.init Option.none parse = Except.ok Input.freshState
  ∧ (Input.validate Input.freshState).1 = Except.ok () := by
  refine ⟨?_, ?_, ?_, fun parse2 => rfl, rfl, rfl⟩
  · intro st hok
    simp only [Input.init] at hok
    cases hv : (Input.validate (Input.bind Input.freshState d parse)).1 with
    | ok u =>
        rw [hv] at hok
        rw [validate_snd] at hok
        injection hok with h'
        constructor
        · rw [h']
        · rw [← h', hv]
    | error e =>
        rw [hv] at hok
        exact Except.noConfusion hok
  · intro e he
    simp only [Input.init]
    rw [he]
  · intro hok
    simp only [Input.init]
    rw [hok, validate_snd]

/-- Witness for C9: with the identity parse the required arguments of
`defnABC` stay unbound and construction fails with the validation
error; with `parseWorld` binding `name`, construction on `defnGreet`
succeeds with the bound state. -/
theorem c9_init_validates_witness :
    Input.init (some defnABC) (fun s => s)
      = Except.error (PyError.runtimeException
        "Not enough arguments (missing: \"a, b, c\")")
  ∧ Input.init (some defnGreet) parseWorld
      = Except.ok (Input.bind Input.freshState defnGreet parseWorld) := by
  constructor
  · exact (c9_init_validates defnABC (fun s => s)).2.1 _ rfl
  · exact (c9_init_validates defnGreet parseWorld).2.2.1 rfl
